import Mathlib
/-!
Verification development for the licitaciones upload-relay server
(`server.js` single-file route and the batch variant).

The JavaScript source is shallowly embedded: the multer pipeline
(filename generation, fileFilter, size limit), the Express routes, the
error-handling middleware, the downstream relay call, the staged-file
cleanup, and the periodic sweep are modelled as pure Lean functions.
File sizes and timestamps are `Nat` (millisecond clocks, byte counts);
the staging directory is a list of staged path names; the outcome of the
single outbound `axios.post` (which uses `validateStatus: () => true`,
so it resolves for every HTTP status and throws only on network-level
failure) is an explicit `RelayOutcome` value fed to the handler.

Behaviour of the external `multer` and `form-data` npm packages that the
source relies on is embedded from their documented APIs:
`upload.array(name)` populates `req.files` and never sets `req.file`;
an oversized part aborts with a `MulterError` whose `code` is
`"LIMIT_FILE_SIZE"` and whose message is `"File too large"`; a
`fileFilter` callback error is passed through as the plain `Error` the
filter supplied; on abort multer removes the files it had already
written; `FormData.append` stringifies numeric values.
-/
/-- A file part of an incoming multipart request, as multer sees it
before staging: declared field name, original client filename, declared
content type, and byte size. -/
structure UploadedPart where
  fieldname : String
  originalname : String
  mimetype : String
  size : Nat
deriving DecidableEq
/-- A file multer has staged on disk: generated path, original name and
size (the fields of `req.file` / `req.files[i]` the handlers read). -/
structure StagedFile where
  path : String
  originalname : String
  size : Nat
deriving DecidableEq
/-- JS truthiness of `process.env` style string values: `undefined` and
the empty string are falsy, any other string is truthy (used by
`req.body.x || default` and by `!!N8N_WEBHOOK_URL`). -/
def jsTruthy : Option String → Bool
  | none => false
  | some s => !s.isEmpty
/-- Evaluation of `a || b` on an optional string, with JS truthiness: returns the
stored string when truthy, the default otherwise. -/
def jsOr (a : Option String) (b : String) : String :=
  match a with
  | none => b
  | some s => if s.isEmpty then b else s
/-! ## Staging store: deletion (`fs.unlink` with a discarded-error callback)

The staging directory is modelled as the list of staged path names.
`fs.unlink(filePath, () => {})` removes the path when present; when the
path is absent the callback receives an ENOENT error that the source
discards, so the caller observes nothing either way. -/
/-- Effect of `fs.unlink(p, () => {})` on the staging directory: the
path is gone afterwards; an ENOENT on an already-absent path is
swallowed by the empty callback, so the function is total and returns
only the new directory contents. -/
def removeStaged (fs : List String) (p : String) : List String :=
  fs.filter (fun q => q != p)
/-- The batch handler's catch path guards the unlink with
`fs.existsSync(filePath)` before calling `fs.unlink`. -/
def removeIfExists (fs : List String) (p : String) : List String :=
  if p ∈ fs then removeStaged fs p else fs
/-- Cleanup loop `filePaths.forEach(p => fs.unlink(p, () => {}))`. -/
def removeAll (fs : List String) (ps : List String) : List String :=
  ps.foldl removeStaged fs
/-! ## Health endpoint and startup validation -/
/-- Body of `GET /health`: `{status: 'ok', ..., n8nConnected: !!N8N_WEBHOOK_URL}`. -/
structure HealthBody where
  statusField : String
  n8nConnected : Bool
deriving DecidableEq
/-- Startup check `if (!N8N_WEBHOOK_URL) { ...; process.exit(1); }`:
the process only keeps running when the configured URL is truthy. -/
def startupOk (n8nWebhookUrl : Option String) : Bool :=
  jsTruthy n8nWebhookUrl
/-- The `GET /health` handler. -/
def healthHandler (n8nWebhookUrl : Option String) : HealthBody :=
  { statusField := "ok", n8nConnected := jsTruthy n8nWebhookUrl }
/-! ## Filename generation (multer.diskStorage filename callback)

```
const sanitized = file.originalname
  .replace(/[^a-zA-Z0-9.-]/g, '_')
  .replace(/_+/g, '_');
cb(null, `${timestamp}-${random}-${sanitized}`);
```
-/
/-- Characters matched by the class `[a-zA-Z0-9.-]`. -/
def isAllowedChar (c : Char) : Bool :=
  ('a' ≤ c && c ≤ 'z') || ('A' ≤ c && c ≤ 'Z') ||
  ('0' ≤ c && c ≤ '9') || c == '.' || c == '-'
/-- Action of `.replace(/[^a-zA-Z0-9.-]/g, '_')` on one character. -/
def replaceDisallowed (c : Char) : Char :=
  if isAllowedChar c then c else '_'
/-- The second replace `.replace(/_+/g, '_')`: every run of consecutive underscores is
collapsed to a single underscore. -/
def collapseUnderscoreRuns : List Char → List Char
  | [] => []
  | [c] => [c]
  | c1 :: c2 :: rest =>
    if c1 == '_' && c2 == '_' then collapseUnderscoreRuns (c2 :: rest)
    else c1 :: collapseUnderscoreRuns (c2 :: rest)
/-- The two chained `.replace` calls of the filename callback. -/
def sanitize (s : String) : String :=
  ⟨collapseUnderscoreRuns (s.data.map replaceDisallowed)⟩
/-- The staged filename `` `${timestamp}-${random}-${sanitized}` ``. -/
def generatedFilename (timestamp : Nat) (random : String)
    (originalname : String) : String :=
  toString timestamp ++ "-" ++ random ++ "-" ++ sanitize originalname
/-- Modelled from the spec's words, for comparison with `sanitize`:
"sanitizing the original filename (strip characters outside
alphanumerics/dot/hyphen ...)" — characters outside the class are
dropped rather than replaced. -/
def sanitizeSpecStrip (s : String) : String :=
  ⟨s.data.filter isAllowedChar⟩
/-- No two adjacent underscores in a character list. -/
def noDoubleUnderscore : List Char → Bool
  | c1 :: c2 :: rest => !(c1 == '_' && c2 == '_') && noDoubleUnderscore (c2 :: rest)
  | _ => true
/-! ## Housekeeping sweep

```
setInterval(() => {
  const now = Date.now();
  const maxAge = 30 * 60 * 1000;
  fs.readdir(TEMP_DIR, (err, files) => {
    if (err) return;
    files.forEach(file => {
      fs.stat(filePath, (err, stats) => {
        if (err) return;
        if (now - stats.mtimeMs > maxAge) {
          fs.unlink(filePath, () => console.log(...));
        }
      });
    });
  });
}, 30 * 60 * 1000);
```

Each directory entry is handled by its own independent callback chain;
a failing `fs.stat` returns from that entry's callback only, and a
failing `fs.unlink` is reported to a log-only callback. We model an
entry by its name, the outcome of `fs.stat` (`none` = stat error) and
whether its `fs.unlink` would fail. -/
/-- A directory entry as seen by one sweep cycle. -/
structure SweepEntry where
  name : String
  mtimeMs : Option Nat
  unlinkFails : Bool
deriving DecidableEq
/-- The constant `maxAge = 30 * 60 * 1000` (the 30-minute TTL, in milliseconds). -/
def sweepTtlMs : Nat := 30 * 60 * 1000
/-- Whether one entry survives the sweep cycle: a stat error skips the
entry (it stays); otherwise it is deleted exactly when
`now - stats.mtimeMs > maxAge` and the unlink succeeds. `Nat`
subtraction truncates at zero, which agrees with the JS comparison: a
negative age is never `> maxAge`. -/
def sweepKeeps (now : Nat) (e : SweepEntry) : Bool :=
  match e.mtimeMs with
  | none => true
  | some m => if now - m > sweepTtlMs then e.unlinkFails else true
/-- One cycle of the cleanup interval over the directory listing. -/
def sweepCycle (now : Nat) (entries : List SweepEntry) : List SweepEntry :=
  entries.filter (sweepKeeps now)
/-! ## Multer pipeline and Express error middleware

`upload = multer({ storage, limits: { fileSize: MAX_FILE_SIZE }, fileFilter })`
with `fileFilter` rejecting every part whose mimetype is not
`application/pdf` via `cb(new Error('Solo PDFs permitidos'), false)`.
The size limit aborts with multer's own `MulterError`, whose `code` is
`"LIMIT_FILE_SIZE"` and whose message is `"File too large"`. The
`fileFilter` runs before the part is written; when processing aborts,
multer removes every file it had already staged for the request, so an
aborted request leaves nothing in the staging directory. -/
/-- An error travelling to the Express error middleware: either a
`multer.MulterError` (carrying its `code`) or a plain `Error`. -/
inductive JsError where
  | multerErr (code : String) (message : String)
  | plainErr (message : String)
deriving DecidableEq
/-- The limit `MAX_FILE_SIZE = (process.env.MAX_FILE_SIZE_MB || 80) * 1024 * 1024`
with the default applied. -/
def defaultMaxFileSize : Nat := 80 * 1024 * 1024
/-- Processing of one part: `fileFilter` first (before any write), then
the byte-size limit while writing; on success the part is staged under
the generated filename built from its `(timestamp, random)` seed. -/
def multerStep (maxFileSize : Nat) (p : UploadedPart) (seed : Nat × String) :
    Except JsError StagedFile :=
  if p.mimetype != "application/pdf" then
    .error (.plainErr "Solo PDFs permitidos")
  else if p.size > maxFileSize then
    .error (.multerErr "LIMIT_FILE_SIZE" "File too large")
  else
    .ok { path := generatedFilename seed.1 seed.2 p.originalname,
          originalname := p.originalname, size := p.size }
/-- Processing of `upload.array(...)` over the request's parts (each paired with the
`(Date.now(), random)` seed its filename callback draws): the parts are
processed in order and the first error aborts the whole request. -/
def multerArray (maxFileSize : Nat) :
    List (UploadedPart × Nat × String) → Except JsError (List StagedFile)
  | [] => .ok []
  | (p, seed) :: rest =>
    match multerStep maxFileSize p seed with
    | .error e => .error e
    | .ok f =>
      match multerArray maxFileSize rest with
      | .error e => .error e
      | .ok fs => .ok (f :: fs)
/-- The Express error-handling middleware:

```
if (err instanceof multer.MulterError) {
  if (err.code === 'FILE_TOO_LARGE') { return res.status(413)... }
}
res.status(500).json({ success: false, error: err.message });
```

returning the response status and error message. -/
def errorMiddleware (e : JsError) : Nat × String :=
  match e with
  | .multerErr code msg =>
    if code == "FILE_TOO_LARGE" then (413, "File too large") else (500, msg)
  | .plainErr msg => (500, msg)
/-! ## The single-file route of `server.js`

`app.post('/api/upload-batch', upload.array('file'), async (req, res) => ...)`
— the middleware is `upload.array('file')`, which stores the parsed
parts in `req.files` and never assigns `req.file`; the handler body then
reads `req.file`. The downstream call and both response branches of the
body are embedded in full (parameterised by the relay outcome), with
`req.file : Option StagedFile` an explicit input so the embedding captures
exactly what the route wires into it: `none`. -/
/-- Outcome of the single `axios.post` to `N8N_WEBHOOK_URL`: with
`validateStatus: () => true` the promise resolves for every HTTP status
(carrying the optional `jobId` of the response body), and rejects only
on network-level failure (connection refused, timeout, DNS failure). -/
inductive RelayOutcome where
  | http (status : Nat) (jobId : Option String)
  | netError (message : String)
deriving DecidableEq
/-- The string `(fileSize / 1024 / 1024).toFixed(2)` rendered from the size in
hundredths of a MiB (rounded half away from zero, as `toFixed` does for
these positive magnitudes). -/
def toFixed2MB (sizeBytes : Nat) : String :=
  let hundredths := (sizeBytes * 100 + 524288) / 1048576
  toString (hundredths / 100) ++ "." ++
    (if hundredths % 100 < 10 then "0" else "") ++ toString (hundredths % 100)
/-- What the single-file handler produced: response status and body
fields, the number of downstream calls it made, the multipart form
fields it appended, and the staging directory it left behind. -/
structure SingleResult where
  status : Nat
  success : Bool
  errorMsg : Option String
  fileSizeMB : Option String
  jobId : Option String
  relayCalls : Nat
  formFields : List (String × String)
  stagedAfter : List String
deriving DecidableEq
/-- The handler body of the single-file route (lines 114-190 of
`server.js`), given `req.file`, the staging directory as multer left it,
the optional body fields, the relay outcome and `Date.now()` at the
fallback-jobId site. `req.file` absent returns 400 at once (before any
cleanup); otherwise the form is built, the relay called once, the staged
file unlinked on every continuation (the success/failure return and the
catch path alike). -/
def singleHandlerBody (reqFile : Option StagedFile) (fsStaged : List String)
    (bodyProcessType bodyClientId : Option String) (relay : RelayOutcome)
    (nowMs : Nat) : SingleResult :=
  match reqFile with
  | none =>
    { status := 400, success := false, errorMsg := some "No file found",
      fileSizeMB := none, jobId := none, relayCalls := 0, formFields := [],
      stagedAfter := fsStaged }
  | some f =>
    let sizeMB := toFixed2MB f.size
    let fields := [("process_type", jsOr bodyProcessType "GG"),
                   ("client_id", jsOr bodyClientId "INTELEC_SL"),
                   ("uploaded_by", "backend-api"),
                   ("file_size_mb", sizeMB)]
    match relay with
    | .http st jid =>
      let fsAfter := removeStaged fsStaged f.path
      if 200 ≤ st ∧ st < 300 then
        { status := 200, success := true, errorMsg := none,
          fileSizeMB := some sizeMB,
          jobId := some (match jid with
            | some j => if j.isEmpty then "job_" ++ toString nowMs else j
            | none => "job_" ++ toString nowMs),
          relayCalls := 1, formFields := fields, stagedAfter := fsAfter }
      else
        { status := st, success := false, errorMsg := some "N8N error",
          fileSizeMB := none, jobId := none, relayCalls := 1,
          formFields := fields, stagedAfter := fsAfter }
    | .netError msg =>
      { status := 500, success := false, errorMsg := some msg,
        fileSizeMB := none, jobId := none, relayCalls := 1,
        formFields := fields,
        stagedAfter := removeIfExists fsStaged f.path }
/-- The whole single-file route: multer first (an error goes to the
error middleware and the request's staged files are rolled back), then
the handler body with `req.file = none` — `upload.array('file')` only
ever fills `req.files`. -/
def serverSingleRoute (maxFileSize : Nat)
    (reqParts : List (UploadedPart × Nat × String))
    (bodyProcessType bodyClientId : Option String) (relay : RelayOutcome)
    (nowMs : Nat) : SingleResult :=
  match multerArray maxFileSize reqParts with
  | .error e =>
    let em := errorMiddleware e
    { status := em.1, success := false, errorMsg := some em.2,
      fileSizeMB := none, jobId := none, relayCalls := 0, formFields := [],
      stagedAfter := [] }
  | .ok files =>
    singleHandlerBody none (files.map (·.path)) bodyProcessType bodyClientId
      relay nowMs
/-! ## The batch route (`/api/upload-batch` with `upload.array('files', 10)`)

The batch variant of the source stages up to 10 parts named `files`
into `req.files`, builds one `FormData` with a part per file named
`file_1 .. file_N` plus batch metadata, performs the single
`axios.post` (again with `validateStatus: () => true`), unlinks every
staged path on every continuation, and shapes the response from the
downstream status. `FormData.append('total_files', totalFiles)` passes
a number, which the form-data package stringifies. -/
/-- A value appended to the outgoing multipart form: a plain string
field or a file part (carrying the filename the stream is sent under). -/
inductive FormVal where
  | str (s : String)
  | filePart (filename : String)
deriving DecidableEq
/-- Whether a form entry is a file part (as opposed to a metadata field). -/
def isFilePart : String × FormVal → Bool
  | (_, FormVal.filePart _) => true
  | (_, FormVal.str _) => false
/-- The `for` loop appending
`formData.append(`file_${i + 1}`, fileStream, { filename: ... })`
for `i = 0 .. N-1`, with `i` the running index. -/
def batchFileParts (i : Nat) : List StagedFile → List (String × FormVal)
  | [] => []
  | f :: rest =>
    ("file_" ++ toString (i + 1), FormVal.filePart f.originalname) ::
      batchFileParts (i + 1) rest
/-- The full outgoing form of the batch handler: the positional file
parts followed by the six metadata fields, in source order. -/
def buildBatchForm (files : List StagedFile)
    (batchId processType clientId uploadTs : String) :
    List (String × FormVal) :=
  batchFileParts 0 files ++
    [("batch_id", .str batchId), ("process_type", .str processType),
     ("client_id", .str clientId),
     ("total_files", .str (toString files.length)),
     ("uploaded_by", .str "backend-api-batch"),
     ("upload_timestamp", .str uploadTs)]
/-- What the batch handler produced: response status and body fields,
number of downstream calls, the form it sent, and the staging directory
it left behind. -/
structure BatchResult where
  status : Nat
  success : Bool
  totalFiles : Option Nat
  errorMsg : Option String
  relayCalls : Nat
  formParts : List (String × FormVal)
  stagedAfter : List String
deriving DecidableEq
/-- The batch handler body, given `req.files` as multer staged them, the
staging directory contents, the optional body fields, the relay outcome,
`Date.now()` at entry and the `new Date().toISOString()` timestamp.
Empty `req.files` returns 400 before anything is staged trackable;
otherwise the form is built, the relay is called exactly once, and every
collected `filePaths` entry is unlinked on the success/failure
continuation (`fs.unlink(p, () => {})`) and on the catch path
(`if (fs.existsSync(p)) fs.unlink(p, () => {})`) alike. -/
def batchHandler (reqFiles : List StagedFile) (fsStaged : List String)
    (bodyBatchId bodyProcessType bodyClientId : Option String)
    (relay : RelayOutcome) (nowMs : Nat) (uploadTs : String) : BatchResult :=
  if reqFiles.isEmpty then
    { status := 400, success := false, totalFiles := none,
      errorMsg := some "No files found", relayCalls := 0, formParts := [],
      stagedAfter := fsStaged }
  else
    let batchId := jsOr bodyBatchId ("batch_" ++ toString nowMs)
    let processType := jsOr bodyProcessType "GG"
    let clientId := jsOr bodyClientId "INTELEC_SL"
    let filePaths := reqFiles.map (·.path)
    let form := buildBatchForm reqFiles batchId processType clientId uploadTs
    match relay with
    | .http st _ =>
      let fsAfter := removeAll fsStaged filePaths
      if 200 ≤ st ∧ st < 300 then
        { status := 200, success := true, totalFiles := some reqFiles.length,
          errorMsg := none, relayCalls := 1, formParts := form,
          stagedAfter := fsAfter }
      else
        { status := st, success := false, totalFiles := none,
          errorMsg := some "Error en N8N", relayCalls := 1, formParts := form,
          stagedAfter := fsAfter }
    | .netError msg =>
      { status := 500, success := false, totalFiles := none,
        errorMsg := some msg, relayCalls := 1, formParts := form,
        stagedAfter := filePaths.foldl removeIfExists fsStaged }
theorem removeStaged_mem (fs : List String) (p q : String) :
    q ∈ removeStaged fs p ↔ q ∈ fs ∧ q ≠ p := by
  simp [removeStaged, List.mem_filter, bne_iff_ne]
theorem removeStaged_not_mem (fs : List String) (p : String) :
    p ∉ removeStaged fs p := by
  simp [removeStaged_mem]
theorem removeStaged_of_not_mem (fs : List String) (p : String)
    (h : p ∉ fs) : removeStaged fs p = fs := by
  apply List.filter_eq_self.mpr
  intro a ha
  simp only [bne_iff_ne, ne_eq, decide_eq_true_eq]
  exact fun he => h (he ▸ ha)
theorem removeStaged_idem (fs : List String) (p : String) :
    removeStaged (removeStaged fs p) p = removeStaged fs p :=
  removeStaged_of_not_mem _ p (removeStaged_not_mem fs p)
theorem removeIfExists_eq (fs : List String) (p : String) :
    removeIfExists fs p = removeStaged fs p := by
  by_cases h : p ∈ fs
  · simp [removeIfExists, h]
  · simp [removeIfExists, h, removeStaged_of_not_mem fs p h]
theorem removeAll_subset (fs : List String) (ps : List String) (p : String) :
    p ∈ removeAll fs ps → p ∈ fs := by
  induction ps generalizing fs with
  | nil => exact fun h => h
  | cons a l ih =>
    intro h
    exact ((removeStaged_mem fs a p).mp (ih (removeStaged fs a) h)).1
theorem removeAll_not_mem (fs : List String) (ps : List String) :
    ∀ p ∈ ps, p ∉ removeAll fs ps := by
  induction ps generalizing fs with
  | nil => simp
  | cons a l ih =>
    intro p hp
    rcases List.mem_cons.mp hp with h | h
    · subst h
      intro hmem
      exact removeStaged_not_mem fs p
        (removeAll_subset (removeStaged fs p) l p hmem)
    · exact ih (removeStaged fs a) p h
/-- C10: in every health response produced by a running process the
`n8nConnected` flag is true, because startup exits when the downstream
URL is absent (or empty), so no reachable state reports false. -/
theorem health_n8nConnected_always_true (url : Option String)
    (h : startupOk url = true) :
    (healthHandler url).n8nConnected = true := h
/-- Witness for C10 at a concrete configured URL. -/
theorem health_n8nConnected_always_true_witness :
    (healthHandler (some "https://n8n.example/webhook")).n8nConnected = true :=
  health_n8nConnected_always_true (some "https://n8n.example/webhook") (by decide)
/-- C9: deleting an already-deleted staged file is a no-op: the second
`fs.unlink` call returns the directory unchanged (its ENOENT error is
discarded by the `() => {}` callback, so nothing reaches the caller),
deleting an absent path changes nothing, every other staged file is
unaffected by a delete, and the guarded delete of the catch path has
exactly the same effect. -/
theorem removeStaged_noop_on_absent (fs : List String) (p : String) :
    removeStaged (removeStaged fs p) p = removeStaged fs p ∧
    (p ∉ fs → removeStaged fs p = fs) ∧
    (∀ q, q ≠ p → (q ∈ removeStaged fs p ↔ q ∈ fs)) ∧
    removeIfExists (removeStaged fs p) p = removeStaged fs p := by
  refine ⟨removeStaged_idem fs p, removeStaged_of_not_mem fs p, ?_, ?_⟩
  · intro q hq
    rw [removeStaged_mem]
    exact ⟨fun h => h.1, fun h => ⟨h, hq⟩⟩
  · rw [removeIfExists_eq]
    exact removeStaged_idem fs p
/-- Witness for C9 at a concrete directory and path. -/
theorem removeStaged_noop_on_absent_witness :
    removeStaged ["a.pdf", "b.pdf"] "c.pdf" = ["a.pdf", "b.pdf"] :=
  (removeStaged_noop_on_absent ["a.pdf", "b.pdf"] "c.pdf").2.1 (by decide)
theorem collapseUnderscoreRuns_cons_head (l : List Char) :
    ∀ c : Char, ∃ t, collapseUnderscoreRuns (c :: l) = c :: t := by
  induction l with
  | nil => exact fun c => ⟨[], rfl⟩
  | cons c2 rest ih =>
    intro c
    by_cases h : c == '_' && c2 == '_'
    · obtain ⟨t, ht⟩ := ih c2
      have hc : c = c2 := by
        simp only [Bool.and_eq_true, beq_iff_eq] at h
        rw [h.1, h.2]
      refine ⟨t, ?_⟩
      rw [collapseUnderscoreRuns, if_pos h, ht, hc]
    · exact ⟨collapseUnderscoreRuns (c2 :: rest), by
        rw [collapseUnderscoreRuns, if_neg h]⟩
theorem noDoubleUnderscore_collapse (l : List Char) :
    ∀ c : Char, noDoubleUnderscore (collapseUnderscoreRuns (c :: l)) = true := by
  induction l with
  | nil => exact fun c => rfl
  | cons c2 rest ih =>
    intro c
    by_cases h : c == '_' && c2 == '_'
    · rw [collapseUnderscoreRuns, if_pos h]
      exact ih c2
    · rw [collapseUnderscoreRuns, if_neg h]
      obtain ⟨t, ht⟩ := collapseUnderscoreRuns_cons_head rest c2
      rw [ht]
      have htail := ih c2
      rw [ht] at htail
      simp only [noDoubleUnderscore, Bool.and_eq_true, Bool.not_eq_true']
      exact ⟨by simpa using h, htail⟩
theorem noDoubleUnderscore_collapse_all (l : List Char) :
    noDoubleUnderscore (collapseUnderscoreRuns l) = true := by
  cases l with
  | nil => rfl
  | cons c rest => exact noDoubleUnderscore_collapse rest c
theorem collapseUnderscoreRuns_subset (l : List Char) :
    ∀ a ∈ collapseUnderscoreRuns l, a ∈ l := by
  induction l with
  | nil => simp [collapseUnderscoreRuns]
  | cons c rest ih =>
    cases rest with
    | nil => simp [collapseUnderscoreRuns]
    | cons c2 r2 =>
      intro a ha
      by_cases h : c == '_' && c2 == '_'
      · rw [collapseUnderscoreRuns, if_pos h] at ha
        exact List.mem_cons_of_mem c (ih a ha)
      · rw [collapseUnderscoreRuns, if_neg h] at ha
        rcases List.mem_cons.mp ha with h1 | h1
        · exact h1 ▸ List.mem_cons_self a _
        · exact List.mem_cons_of_mem c (ih a h1)
/-- C7 counterexample: the code replaces disallowed characters with
underscores instead of stripping them, so for the original name
`"a b.pdf"` the staged filename is `"17-x-a_b.pdf"`, not the
`"17-x-ab.pdf"` that stripping would give. -/
theorem generatedFilename_not_stripped :
    sanitize "a b.pdf" = "a_b.pdf" ∧
    sanitizeSpecStrip "a b.pdf" = "ab.pdf" ∧
    generatedFilename 17 "x" "a b.pdf" = "17-x-a_b.pdf" ∧
    generatedFilename 17 "x" "a b.pdf" ≠
      "17-x-" ++ sanitizeSpecStrip "a b.pdf" := by
  refine ⟨rfl, rfl, ?_, ?_⟩ <;> decide
/-- C7 amended: the staged filename is the timestamp, the random token
and the sanitized original name joined by hyphens, where sanitization
REPLACES each character outside alphanumerics/dot/hyphen with an
underscore and collapses runs of underscores: every character of the
sanitized part is in the allowed class or an underscore, and no two
adjacent underscores remain. -/
theorem generatedFilename_spec (timestamp : Nat) (random orig : String) :
    generatedFilename timestamp random orig =
      toString timestamp ++ "-" ++ random ++ "-" ++ sanitize orig ∧
    ((sanitize orig).data.all fun c => isAllowedChar c || c == '_') = true ∧
    noDoubleUnderscore (sanitize orig).data = true := by
  refine ⟨rfl, ?_, noDoubleUnderscore_collapse_all _⟩
  rw [List.all_eq_true]
  intro c hc
  have hmem := collapseUnderscoreRuns_subset _ c hc
  obtain ⟨a, _, ha⟩ := List.mem_map.mp hmem
  rw [← ha]
  by_cases h : isAllowedChar a
  · simp [replaceDisallowed, h]
  · simp [replaceDisallowed, h]
/-- C8: in every sweep cycle every staged file strictly older than the
30-minute TTL (whose stat and unlink succeed) is removed, every file
of age at most the TTL survives untouched, an entry whose stat failed
is skipped and survives, and the fate of one entry never affects the
sweep of the entries before or after it (the per-entry callbacks are
independent, so one failure cannot abort the rest). -/
theorem sweepCycle_spec (now : Nat) (pre post : List SweepEntry)
    (e : SweepEntry) :
    sweepCycle now (pre ++ e :: post) =
      sweepCycle now pre ++ (if sweepKeeps now e then [e] else []) ++
        sweepCycle now post ∧
    (∀ m, e.mtimeMs = some m → now - m > sweepTtlMs → e.unlinkFails = false →
      sweepKeeps now e = false) ∧
    (∀ m, e.mtimeMs = some m → now - m ≤ sweepTtlMs → sweepKeeps now e = true) ∧
    (e.mtimeMs = none → sweepKeeps now e = true) := by
  refine ⟨?_, ?_, ?_, ?_⟩
  · simp only [sweepCycle, List.filter_append, List.filter_cons]
    by_cases h : sweepKeeps now e
    · simp [h]
    · simp [h]
  · intro m hm hage hunlink
    simp [sweepKeeps, hm, hage, hunlink]
  · intro m hm hage
    simp [sweepKeeps, hm, not_lt.mpr hage]
  · intro hm
    simp [sweepKeeps, hm]
/-- Witness for C8: a concrete sweep at `now = 3600000` over an expired
entry, a young entry and a stat-error entry keeps exactly the latter
two. -/
theorem sweepCycle_spec_witness :
    sweepCycle 3600000
        [⟨"old.pdf", some 0, false⟩, ⟨"new.pdf", some 3500000, false⟩,
         ⟨"odd.pdf", none, false⟩] =
      [⟨"new.pdf", some 3500000, false⟩, ⟨"odd.pdf", none, false⟩] ∧
    sweepKeeps 3600000 ⟨"old.pdf", some 0, false⟩ = false := by
  have h := sweepCycle_spec 3600000 []
    [⟨"new.pdf", some 3500000, false⟩, ⟨"odd.pdf", none, false⟩]
    ⟨"old.pdf", some 0, false⟩
  have hk : sweepKeeps 3600000 ⟨"old.pdf", some 0, false⟩ = false :=
    h.2.1 0 rfl (by decide) rfl
  refine ⟨?_, hk⟩
  have hd := h.1
  rw [hk] at hd
  simpa [sweepCycle, sweepKeeps] using hd
/-- C1 (code bug): a request carrying one valid 2 MiB PDF part named
`file` and no optional fields, with the downstream ready to answer 200
with a jobId, is nevertheless answered 400 `"No file found"`, with zero
downstream calls and no form fields — `upload.array('file')` fills
`req.files`, never `req.file`, so the handler's `if (!req.file)` guard
fires on every request and the relay/200 path is unreachable. -/
theorem singleUpload_always_400 :
    serverSingleRoute defaultMaxFileSize
        [(⟨"file", "licitacion.pdf", "application/pdf", 2097152⟩, 1700, "ab")]
        none none (.http 200 (some "job-77")) 1701 =
      { status := 400, success := false, errorMsg := some "No file found",
        fileSizeMB := none, jobId := none, relayCalls := 0, formFields := [],
        stagedAfter := ["1700-ab-licitacion.pdf"] } := by
  decide
/-- C2 counterexample: a request whose file part declares content type
`text/plain` is answered with status 500 — not a 4xx — because the
`fileFilter` rejection is a plain `Error`, which the error middleware's
only special case (`FILE_TOO_LARGE`) does not match. No file is staged. -/
theorem nonPdf_rejected_500_not_4xx :
    (serverSingleRoute defaultMaxFileSize
        [(⟨"file", "notes.txt", "text/plain", 1000⟩, 1700, "ab")]
        none none (.http 200 none) 1701).status = 500 ∧
    ¬(400 ≤ (serverSingleRoute defaultMaxFileSize
        [(⟨"file", "notes.txt", "text/plain", 1000⟩, 1700, "ab")]
        none none (.http 200 none) 1701).status ∧
      (serverSingleRoute defaultMaxFileSize
        [(⟨"file", "notes.txt", "text/plain", 1000⟩, 1700, "ab")]
        none none (.http 200 none) 1701).status < 500) := by
  decide
/-- C2 amended: every upload request whose file part declares a non-PDF
content type is answered with HTTP 500 carrying the filter's message
(`Solo PDFs permitidos`), not a 4xx, no file is written to the staging
directory, and the downstream is never called. -/
theorem nonPdf_rejected (maxFileSize : Nat) (p : UploadedPart)
    (seed : Nat × String) (bodyPT bodyCI : Option String)
    (relay : RelayOutcome) (nowMs : Nat)
    (h : p.mimetype ≠ "application/pdf") :
    (serverSingleRoute maxFileSize [(p, seed)] bodyPT bodyCI relay nowMs).status
        = 500 ∧
    (serverSingleRoute maxFileSize [(p, seed)] bodyPT bodyCI relay
        nowMs).errorMsg = some "Solo PDFs permitidos" ∧
    (serverSingleRoute maxFileSize [(p, seed)] bodyPT bodyCI relay
        nowMs).stagedAfter = [] ∧
    (serverSingleRoute maxFileSize [(p, seed)] bodyPT bodyCI relay
        nowMs).relayCalls = 0 := by
  have hb : (p.mimetype != "application/pdf") = true := bne_iff_ne.mpr h
  simp [serverSingleRoute, multerArray, multerStep, hb, errorMiddleware]
/-- Witness for the amended C2 at a concrete non-PDF part. -/
theorem nonPdf_rejected_witness :
    (serverSingleRoute defaultMaxFileSize
        [(⟨"file", "n.txt", "text/plain", 5⟩, 3, "q")]
        none none (.netError "refused") 9).status = 500 :=
  (nonPdf_rejected defaultMaxFileSize ⟨"file", "n.txt", "text/plain", 5⟩
    (3, "q") none none (.netError "refused") 9 (by decide)).1
/-- C3 (code bug): an 81 MiB PDF under the default 80 MiB limit aborts
with multer's `LIMIT_FILE_SIZE` error, but the middleware compares
`err.code` against the nonexistent `'FILE_TOO_LARGE'`, so its 413
branch is dead and the client receives 500 `"File too large"` instead
of 413. No downstream call is constructed (that half of the claim
holds). The last two conjuncts exhibit the mismatch: the code multer
actually raises maps to 500, while the string the middleware tests for
would have mapped to 413. -/
theorem oversized_rejected_500_not_413 :
    (serverSingleRoute defaultMaxFileSize
        [(⟨"file", "big.pdf", "application/pdf", 81 * 1024 * 1024⟩, 1700, "ab")]
        none none (.http 200 none) 1701).status = 500 ∧
    (serverSingleRoute defaultMaxFileSize
        [(⟨"file", "big.pdf", "application/pdf", 81 * 1024 * 1024⟩, 1700, "ab")]
        none none (.http 200 none) 1701).relayCalls = 0 ∧
    errorMiddleware (.multerErr "LIMIT_FILE_SIZE" "File too large") =
      (500, "File too large") ∧
    errorMiddleware (.multerErr "FILE_TOO_LARGE" "File too large") =
      (413, "File too large") := by
  decide
theorem foldl_removeIfExists_eq_removeAll (ps : List String)
    (fs : List String) :
    ps.foldl removeIfExists fs = removeAll fs ps := by
  induction ps generalizing fs with
  | nil => rfl
  | cons a l ih =>
    show l.foldl removeIfExists (removeIfExists fs a) = _
    rw [removeIfExists_eq, ih]
    rfl
theorem batchFileParts_filter (i : Nat) (files : List StagedFile) :
    (batchFileParts i files).filter isFilePart = batchFileParts i files := by
  induction files generalizing i with
  | nil => rfl
  | cons f rest ih =>
    simp [batchFileParts, List.filter_cons, isFilePart, ih]
theorem batchFileParts_length (i : Nat) (files : List StagedFile) :
    (batchFileParts i files).length = files.length := by
  induction files generalizing i with
  | nil => rfl
  | cons f rest ih => simp [batchFileParts, ih]
theorem batchFileParts_get? (files : List StagedFile) :
    ∀ i k, (batchFileParts i files).get? k =
      (files.get? k).map
        (fun f => ("file_" ++ toString (i + k + 1),
          FormVal.filePart f.originalname)) := by
  induction files with
  | nil => intro i k; cases k <;> rfl
  | cons f rest ih =>
    intro i k
    cases k with
    | zero => rfl
    | succ k =>
      show (batchFileParts (i + 1) rest).get? k = _
      rw [ih (i + 1) k]
      have : i + 1 + k + 1 = i + (k + 1) + 1 := by omega
      rw [this]
      rfl
theorem batchHandler_nonempty_shape (reqFiles : List StagedFile)
    (fsStaged : List String) (b1 b2 b3 : Option String)
    (relay : RelayOutcome) (nowMs : Nat) (ts : String)
    (h : reqFiles.isEmpty = false) :
    (batchHandler reqFiles fsStaged b1 b2 b3 relay nowMs ts).formParts =
      buildBatchForm reqFiles (jsOr b1 ("batch_" ++ toString nowMs))
        (jsOr b2 "GG") (jsOr b3 "INTELEC_SL") ts ∧
    (batchHandler reqFiles fsStaged b1 b2 b3 relay nowMs ts).relayCalls = 1 := by
  cases relay with
  | http st jid =>
    by_cases hst : 200 ≤ st ∧ st < 300
    · simp [batchHandler, h, hst]
    · simp [batchHandler, h, hst]
  | netError msg => simp [batchHandler, h]
/-- C5: for every batch request that reaches the relay step (`req.files`
nonempty, so the handler proceeds past the 400 guard to the single
`axios.post`), after the handler completes — downstream success,
downstream rejection, or a thrown error caught by the catch path —
every staged file referenced by the request is absent from the staging
directory. -/
theorem batch_staged_files_deleted (reqFiles : List StagedFile)
    (fsStaged : List String) (b1 b2 b3 : Option String)
    (relay : RelayOutcome) (nowMs : Nat) (ts : String)
    (h : reqFiles ≠ []) :
    ∀ f ∈ reqFiles, f.path ∉
      (batchHandler reqFiles fsStaged b1 b2 b3 relay nowMs ts).stagedAfter := by
  intro f hf
  have hne : reqFiles.isEmpty = false := by
    cases reqFiles with
    | nil => exact absurd rfl h
    | cons a l => rfl
  have hmem : f.path ∈ reqFiles.map (·.path) := List.mem_map_of_mem _ hf
  cases relay with
  | http st jid =>
    by_cases hst : 200 ≤ st ∧ st < 300
    · simp only [batchHandler, hne, Bool.false_eq_true, if_false, if_pos hst]
      exact removeAll_not_mem fsStaged _ _ hmem
    · simp only [batchHandler, hne, Bool.false_eq_true, if_false, if_neg hst]
      exact removeAll_not_mem fsStaged _ _ hmem
  | netError msg =>
    simp only [batchHandler, hne, Bool.false_eq_true, if_false]
    rw [foldl_removeIfExists_eq_removeAll]
    exact removeAll_not_mem fsStaged _ _ hmem
/-- Witness for C5: one staged file, downstream answers 200; the staged
path is gone from a directory that also held an unrelated file. -/
theorem batch_staged_files_deleted_witness :
    "up/1-x-a.pdf" ∉
      (batchHandler [⟨"up/1-x-a.pdf", "a.pdf", 5⟩]
        ["up/1-x-a.pdf", "up/other.pdf"] none none none
        (.http 200 none) 0 "ts").stagedAfter :=
  batch_staged_files_deleted [⟨"up/1-x-a.pdf", "a.pdf", 5⟩]
    ["up/1-x-a.pdf", "up/other.pdf"] none none none (.http 200 none) 0 "ts"
    (by decide) ⟨"up/1-x-a.pdf", "a.pdf", 5⟩ (List.mem_singleton.mpr rfl)
/-- C4: for every relay request that reaches the downstream (the batch
handler past its 400 guard), an HTTP answer is surfaced as-is: a
non-2xx downstream status becomes the response status unchanged, a 2xx
yields the handler's 200 success response, and only a network-level
rejection of the `axios.post` promise (connection refused, timeout, DNS
failure — the only rejections left once `validateStatus: () => true`
accepts every status) lands in the catch path and produces a 500. -/
theorem batch_forwards_downstream_status (reqFiles : List StagedFile)
    (fsStaged : List String) (b1 b2 b3 : Option String) (nowMs : Nat)
    (ts : String) (h : reqFiles ≠ []) :
    (∀ st jid, ¬(200 ≤ st ∧ st < 300) →
      (batchHandler reqFiles fsStaged b1 b2 b3 (.http st jid) nowMs
        ts).status = st) ∧
    (∀ st jid, 200 ≤ st ∧ st < 300 →
      (batchHandler reqFiles fsStaged b1 b2 b3 (.http st jid) nowMs
        ts).status = 200 ∧
      (batchHandler reqFiles fsStaged b1 b2 b3 (.http st jid) nowMs
        ts).success = true) ∧
    (∀ msg,
      (batchHandler reqFiles fsStaged b1 b2 b3 (.netError msg) nowMs
        ts).status = 500) := by
  have hne : reqFiles.isEmpty = false := by
    cases reqFiles with
    | nil => exact absurd rfl h
    | cons a l => rfl
  refine ⟨?_, ?_, ?_⟩
  · intro st jid hst
    simp [batchHandler, hne, hst]
  · intro st jid hst
    simp [batchHandler, hne, hst]
  · intro msg
    simp [batchHandler, hne]
/-- Witness for C4: with one staged file, a downstream 404 comes back as
404, a downstream 200 as 200, and a connection refusal as 500. -/
theorem batch_forwards_downstream_status_witness :
    (batchHandler [⟨"p", "a.pdf", 5⟩] [] none none none (.http 404 none) 0
      "ts").status = 404 ∧
    (batchHandler [⟨"p", "a.pdf", 5⟩] [] none none none (.http 200 none) 0
      "ts").status = 200 ∧
    (batchHandler [⟨"p", "a.pdf", 5⟩] [] none none none
      (.netError "ECONNREFUSED") 0 "ts").status = 500 := by
  have h := batch_forwards_downstream_status [⟨"p", "a.pdf", 5⟩] [] none none
    none 0 "ts" (by decide)
  exact ⟨h.1 404 none (by decide), (h.2.1 200 none (by decide)).1,
    h.2.2 "ECONNREFUSED"⟩
/-- C6: for every batch of N staged PDFs (1 ≤ N ≤ 10, the bound multer's
`upload.array('files', 10)` admits), the handler makes exactly one
downstream call whose multipart body holds exactly N file parts, the
k-th named `file_k` and carrying the k-th file's original name, plus a
`total_files` field stringifying N; and when the downstream answers 200
the response body reports `totalFiles = N`. -/
theorem batch_positional_parts (reqFiles : List StagedFile)
    (fsStaged : List String) (b1 b2 b3 : Option String)
    (relay : RelayOutcome) (nowMs : Nat) (ts : String)
    (h1 : 1 ≤ reqFiles.length) (h2 : reqFiles.length ≤ 10) :
    (batchHandler reqFiles fsStaged b1 b2 b3 relay nowMs ts).relayCalls = 1 ∧
    ((batchHandler reqFiles fsStaged b1 b2 b3 relay nowMs
        ts).formParts.filter isFilePart).length = reqFiles.length ∧
    (∀ k, k < reqFiles.length →
      (batchHandler reqFiles fsStaged b1 b2 b3 relay nowMs
          ts).formParts.get? k =
        (reqFiles.get? k).map
          (fun f => ("file_" ++ toString (k + 1),
            FormVal.filePart f.originalname))) ∧
    ("total_files", FormVal.str (toString reqFiles.length)) ∈
      (batchHandler reqFiles fsStaged b1 b2 b3 relay nowMs ts).formParts ∧
    (∀ jid, relay = .http 200 jid →
      (batchHandler reqFiles fsStaged b1 b2 b3 relay nowMs ts).totalFiles =
        some reqFiles.length ∧
      (batchHandler reqFiles fsStaged b1 b2 b3 relay nowMs ts).status = 200) := by
  have hne : reqFiles.isEmpty = false := by
    cases reqFiles with
    | nil => simp at h1
    | cons a l => rfl
  obtain ⟨hform, hcalls⟩ := batchHandler_nonempty_shape reqFiles fsStaged
    b1 b2 b3 relay nowMs ts hne
  refine ⟨hcalls, ?_, ?_, ?_, ?_⟩
  · rw [hform]
    simp only [buildBatchForm, List.filter_append, batchFileParts_filter]
    simp [isFilePart, batchFileParts_length]
  · intro k hk
    rw [hform]
    simp only [buildBatchForm]
    rw [List.get?_append (by rw [batchFileParts_length]; exact hk)]
    have := batchFileParts_get? reqFiles 0 k
    simpa using this
  · rw [hform]
    simp [buildBatchForm]
  · intro jid hrel
    subst hrel
    simp [batchHandler, hne]
/-- Witness for C6: three staged files produce one call with parts
`file_1 file_2 file_3`, `total_files = "3"`, and on downstream 200 the
response reports `totalFiles = 3`. -/
theorem batch_positional_parts_witness :
    (batchHandler [⟨"p1", "a.pdf", 1⟩, ⟨"p2", "b.pdf", 2⟩, ⟨"p3", "c.pdf", 3⟩]
        [] none none none (.http 200 none) 0 "ts").relayCalls = 1 ∧
    (batchHandler [⟨"p1", "a.pdf", 1⟩, ⟨"p2", "b.pdf", 2⟩, ⟨"p3", "c.pdf", 3⟩]
        [] none none none (.http 200 none) 0 "ts").formParts.get? 2 =
      some ("file_" ++ toString 3, FormVal.filePart "c.pdf") ∧
    (batchHandler [⟨"p1", "a.pdf", 1⟩, ⟨"p2", "b.pdf", 2⟩, ⟨"p3", "c.pdf", 3⟩]
        [] none none none (.http 200 none) 0 "ts").totalFiles = some 3 := by
  have h := batch_positional_parts
    [⟨"p1", "a.pdf", 1⟩, ⟨"p2", "b.pdf", 2⟩, ⟨"p3", "c.pdf", 3⟩]
    [] none none none (.http 200 none) 0 "ts" (by decide) (by decide)
  refine ⟨h.1, ?_, (h.2.2.2.2 none rfl).1⟩
  have h2 := h.2.2.1 2 (by decide)
  simpa using h2
